import Mathlib

/-!
Verification development for the rbpf x86-64 JIT compiler (src/src/jit.rs)
and the verifier test-suite (src/tests/verifier.rs).

The definitions below are a shallow embedding of the Rust source: pure
helper functions of the JIT become Lean functions, the mutating emission
methods of `JitCompiler` become state-passing functions over an explicit
emission state, and 64-bit machine arithmetic is modelled as `Nat` with
explicit reduction modulo 2^64.  Emitted x86 instructions are abstracted
to the operations the proved properties speak about (instruction-meter
accounting, anchor calls/jumps, pc-section writes); any emitted machine
instruction that none of the properties observes is collapsed into an
opaque `other` marker, which is sound here because none of those
instructions touches the instruction-meter register RDI, the pc-section,
or the recorded control transfers.
-/

namespace Rbpf

/-- Wrap-around modulus of 64-bit machine arithmetic (2^64, as a numeral so
that omega can use it). -/
def W64 : Nat := 18446744073709551616

/-- Wrap-around modulus of 32-bit machine arithmetic (2^32). -/
def W32 : Nat := 4294967296

/-- Wrapping 64-bit addition (`u64::wrapping_add`). -/
def wadd64 (a b : Nat) : Nat := (a + b) % W64

/-- Wrapping 64-bit subtraction (`u64::wrapping_sub` / `i64::wrapping_sub`
on the underlying bit pattern). -/
def wsub64 (a b : Nat) : Nat := (a % W64 + (W64 - b % W64)) % W64

/-- Rotation of a 64-bit value right by 32 bits (`u64::rotate_right(32)`):
the two 32-bit halves are swapped. -/
def rotr32of64 (a : Nat) : Nat := a % W64 / W32 + (a % W64 % W32) * W32

/-- Zero-extension of the low 32 bits (the effect of a 32-bit x86 ALU
operation on the full register). -/
def low32 (a : Nat) : Nat := a % W32

/-- Sign-extension of a 32-bit bit pattern to a 64-bit bit pattern
(`as i32 as i64` on the bit level). -/
def sext32 (v : Nat) : Nat :=
  if v % W32 < 2147483648 then v % W32 else v % W32 + (W64 - W32)

lemma wadd64_wsub64 (v k : Nat) (hv : v < W64) : wadd64 (wsub64 v k) k = v := by
  unfold wadd64 wsub64 W64 at *
  omega

lemma rotr32of64_rotr32of64 (a : Nat) (ha : a < W64) :
    rotr32of64 (rotr32of64 a) = a := by
  have h1 : a % W64 = a := Nat.mod_eq_of_lt ha
  unfold rotr32of64
  rw [h1]
  have h2 : (a / W32 + a % W32 * W32) % W64 = a / W32 + a % W32 * W32 := by
    apply Nat.mod_eq_of_lt
    unfold W64 W32 at *
    omega
  rw [h2]
  unfold W64 W32 at *
  omega

lemma rotr32of64_lt (a : Nat) : rotr32of64 a < W64 := by
  unfold rotr32of64 W64 W32
  omega

lemma wsub64_lt (a b : Nat) : wsub64 a b < W64 := by
  unfold wsub64 W64
  omega

/-! ## Configuration

Embedding of the fields of `Config` (declared in vm.rs, outside src/) that
src/src/jit.rs reads.  Only the fields and their types are relied upon;
every proof fixes the field values it needs explicitly. -/

structure Config where
  enable_instruction_meter : Bool
  instruction_meter_checkpoint_distance : Nat
  enable_instruction_tracing : Bool
  enable_sdiv : Bool
  enable_address_translation : Bool
  enable_stack_frame_gaps : Bool
  dynamic_stack_frames : Bool
  static_syscalls : Bool
  sanitize_user_provided_values : Bool
  noop_instruction_rate : Nat
  stack_frame_size : Nat
  max_call_depth : Nat
  runtime_environment_key : Int
deriving DecidableEq

/-! ## Runtime environment slot layout (claim C1)

From src/src/jit.rs: the `RuntimeEnvironmentSlot` discriminants, the pivot
arithmetic `slot_on_environment_stack`, and — via the layout test
`test_runtime_environment_slots`, also in src/src/jit.rs — the word offset
of each field of the `RuntimeEnvironment` record. -/

inductive RuntimeEnvironmentSlot where
  | hostStackPointer
  | callDepth
  | stackPointer
  | contextObjectPointer
  | previousInstructionMeter
  | stopwatchNumerator
  | stopwatchDenominator
  | programResult
  | memoryMapping
deriving DecidableEq, Repr

/-- Discriminant of each `RuntimeEnvironmentSlot` variant, exactly as
assigned in src/src/jit.rs lines 245-256 (note the jump from 7 to 10). -/
def slotDiscriminant : RuntimeEnvironmentSlot → Nat
  | .hostStackPointer => 0
  | .callDepth => 1
  | .stackPointer => 2
  | .contextObjectPointer => 3
  | .previousInstructionMeter => 4
  | .stopwatchNumerator => 5
  | .stopwatchDenominator => 6
  | .programResult => 7
  | .memoryMapping => 10

/-- Slots of the runtime environment in the order the spec lists them,
which is also the declaration order of the enum and of the record fields
in `test_runtime_environment_slots`. -/
def slotOrder : List RuntimeEnvironmentSlot :=
  [.hostStackPointer, .callDepth, .stackPointer, .contextObjectPointer,
   .previousInstructionMeter, .stopwatchNumerator, .stopwatchDenominator,
   .programResult, .memoryMapping]

/-- Position of a slot in the spec's listing (0-based). -/
def slotListIndex (s : RuntimeEnvironmentSlot) : Nat :=
  (slotOrder.takeWhile (fun t => decide (t ≠ s))).length

/-- Number of 8-byte words each record field occupies.  All fields are one
word except `program_result` (`ProgramResult = Ok(u64) | Err(ErrorKind)`),
which spans three words: the passing layout test
`test_runtime_environment_slots` in src/src/jit.rs asserts that the word
offset of every field equals its discriminant, and with `memory_mapping`
asserted at word 10 directly after `program_result` at word 7 the
`program_result` field must occupy words 7, 8 and 9.  The JIT's own
accesses agree: `ANCHOR_EXIT` stores the return value at byte offset 8
inside the result slot. -/
def slotWordWidth : RuntimeEnvironmentSlot → Nat
  | .programResult => 3
  | _ => 1

/-- Word offset of a field inside the `RuntimeEnvironment` record: the sum
of the widths of the fields declared before it. -/
def slotWordOffset (s : RuntimeEnvironmentSlot) : Nat :=
  ((slotOrder.takeWhile (fun t => decide (t ≠ s))).map slotWordWidth).sum

/-- Byte offset of a field inside the `RuntimeEnvironment` record. -/
def slotByteOffset (s : RuntimeEnvironmentSlot) : Nat := 8 * slotWordOffset s

/-- Embedding of `JitCompiler::slot_on_environment_stack` (src/src/jit.rs
lines 693-696): the signed displacement, relative to the rbp pivot
(which points `runtime_environment_key` words past the record base), that
the JIT emits to address a slot. -/
def slot_on_environment_stack (cfg : Config) (slot : RuntimeEnvironmentSlot) : Int :=
  8 * ((slotDiscriminant slot : Int) - cfg.runtime_environment_key)

/-- C1 counterexample: the runtime-environment slots do lie in the listed
order, but the byte offset of the memory-mapping slot is 8 × 10 = 80, not
8 × its position in the listing (8 × 8 = 64), because program-result
occupies three 8-byte words.  So the claim "every slot's byte offset
equals its enumerated index × 8", read with the index of the listing in
which memory-mapping follows program-result immediately, is false at the
memory-mapping slot. -/
theorem c1_memory_mapping_offset_not_list_index_times_eight :
    ¬ (slotByteOffset RuntimeEnvironmentSlot.memoryMapping
        = 8 * slotListIndex RuntimeEnvironmentSlot.memoryMapping) := by
  decide

/-- C1 (amended): every slot's byte offset inside the runtime environment
equals 8 × its enum discriminant, and the displacement the JIT emits via
`slot_on_environment_stack` addresses exactly that byte offset once the
rbp pivot (record base + 8 × runtime_environment_key) is added back.  The
discriminants equal the listing position for the first eight slots, but
memory-mapping's discriminant is 10 while its listing position is 8,
because program-result spans three words. -/
theorem c1_slot_offsets_equal_discriminant_times_eight :
    (∀ s : RuntimeEnvironmentSlot, slotByteOffset s = 8 * slotDiscriminant s)
    ∧ (∀ (cfg : Config) (s : RuntimeEnvironmentSlot),
        8 * cfg.runtime_environment_key + slot_on_environment_stack cfg s
          = (slotByteOffset s : Int))
    ∧ (∀ s : RuntimeEnvironmentSlot, s ≠ .memoryMapping →
        slotDiscriminant s = slotListIndex s)
    ∧ slotDiscriminant .memoryMapping = 10
    ∧ slotListIndex .memoryMapping = 8 := by
  have hbyte : ∀ s : RuntimeEnvironmentSlot, slotByteOffset s = 8 * slotDiscriminant s := by
    intro s; cases s <;> rfl
  refine ⟨hbyte, fun cfg s => ?_, fun s hs => ?_, rfl, by decide⟩
  · rw [hbyte s]
    unfold slot_on_environment_stack
    push_cast
    ring
  · cases s <;> first | rfl | exact absurd rfl hs

/-! ## Anchor indices (src/src/jit.rs lines 176-195) -/

def ANCHOR_TRACE : Nat := 0
def ANCHOR_CALL_EXCEEDED_MAX_INSTRUCTIONS : Nat := 1
def ANCHOR_EPILOGUE : Nat := 2
def ANCHOR_ALLOCATE_EXCEPTION : Nat := 3
def ANCHOR_THROW_EXCEPTION_UNCHECKED : Nat := 4
def ANCHOR_EXIT : Nat := 5
def ANCHOR_THROW_EXCEPTION : Nat := 6
def ANCHOR_ACCESS_VIOLATION : Nat := 7
def ANCHOR_CALL_DEPTH_EXCEEDED : Nat := 8
def ANCHOR_CALL_OUTSIDE_TEXT_SEGMENT : Nat := 9
def ANCHOR_DIV_BY_ZERO : Nat := 10
def ANCHOR_DIV_OVERFLOW : Nat := 11
def ANCHOR_CALL_UNSUPPORTED_INSTRUCTION : Nat := 12
def ANCHOR_EXTERNAL_FUNCTION_CALL : Nat := 13
def ANCHOR_ANCHOR_INTERNAL_FUNCTION_CALL_PROLOGUE : Nat := 14
def ANCHOR_ANCHOR_INTERNAL_FUNCTION_CALL_REG : Nat := 15
def ANCHOR_TRANSLATE_MEMORY_ADDRESS : Nat := 23

/-! ## Abstract emitted operations

The claims proved below observe the instruction-meter accounting
operations on the meter register RDI (ARGUMENT_REGISTERS[0]), the
recorded control transfers (anchor calls/jumps and branch targets), and
loads of R11.  Every other emitted machine instruction is abstracted as
`EOp.other`; a maximal run of such instructions inside one emission
helper is collapsed into a single `EOp.other`, which is sound because
none of them touches RDI, the pc-section, or the recorded transfers. -/

inductive EOp where
  /-- cmp RDI, pc+1 followed by a conditional jump to
  `ANCHOR_CALL_EXCEEDED_MAX_INSTRUCTIONS` (below if exclusive, below-or-equal
  otherwise): the meter validation emitted by
  `emit_validate_instruction_count` with a known pc. -/
  | validateMeter (exclusive : Bool) (pc : Nat)
  /-- cmp R11, RDI followed by a conditional jump to
  `ANCHOR_CALL_EXCEEDED_MAX_INSTRUCTIONS`: the meter validation emitted by
  `emit_validate_instruction_count` with pc = None (R11 holds the pc). -/
  | validateMeterDynamic (exclusive : Bool)
  /-- RDI += delta (64-bit immediate add or sub on the meter register). -/
  | meterAddImm (delta : Int)
  /-- RDI -= c (first half of `emit_profile_instruction_count` with an
  unknown target pc). -/
  | meterSubImm (c : Nat)
  /-- RDI += R11 where R11 holds the dynamic target pc (second half of
  `emit_profile_instruction_count` with an unknown target pc). -/
  | meterAddTargetReg
  /-- RDI -= R11 (the epilogue's final pc correction of the meter). -/
  | meterSubTargetReg
  /-- Billing of the context object in the external-call anchor:
  `consume(previous_instruction_meter - RDI)` or
  `RDI = get_remaining()` stored back to the environment. -/
  | meterContextBilling
  | loadImmR11 (v : Int)
  | callAnchor (a : Nat)
  | jumpAnchor (a : Nat)
  | condJumpAnchor (a : Nat)
  | jumpTargetPc (t : Nat)
  | condJumpTargetPc (t : Nat)
  | callTargetPc (t : Nat)
  /-- callq on R10 (the register-indirect internal call). -/
  | callR10
  /-- push of the current pc onto the machine stack (memory-access
  translation passes the faulting pc this way). -/
  | pushImmPc (pc : Nat)
  | other
deriving DecidableEq, Repr

/-- Operations that constitute instruction-meter accounting, profiling or
checkpoint code. -/
def isMeterOp : EOp → Bool
  | .validateMeter _ _ => true
  | .validateMeterDynamic _ => true
  | .meterAddImm _ => true
  | .meterSubImm _ => true
  | .meterAddTargetReg => true
  | .meterSubTargetReg => true
  | .meterContextBilling => true
  | _ => false

/-- Emission state of the compiler: the stream of emitted operations and
the `last_instruction_meter_validation_pc` field of `JitCompiler`. -/
structure EmitState where
  ops : List EOp
  last_instruction_meter_validation_pc : Nat
deriving DecidableEq, Repr

def push (s : EmitState) (o : EOp) : EmitState :=
  { s with ops := s.ops ++ [o] }

def pushList (s : EmitState) (l : List EOp) : EmitState :=
  { s with ops := s.ops ++ l }

/-- Initial emission state. -/
def emptyEmit : EmitState := { ops := [], last_instruction_meter_validation_pc := 0 }

/-! ## Instruction-meter emission helpers (src/src/jit.rs lines 798-839) -/

/-- Embedding of `emit_validate_instruction_count`: with the meter enabled,
record the validation pc (when known) and emit the compare of RDI against
pc + 1 plus the conditional jump to the exceeded-max-instructions anchor;
with the meter disabled, emit nothing. -/
def emit_validate_instruction_count (cfg : Config) (exclusive : Bool) (pc : Option Nat)
    (s : EmitState) : EmitState :=
  if !cfg.enable_instruction_meter then s
  else
    match pc with
    | some p =>
        { ops := s.ops ++ [.validateMeter exclusive p],
          last_instruction_meter_validation_pc := p }
    | none => push s (.validateMeterDynamic exclusive)

/-- Embedding of `emit_profile_instruction_count`: with a known target,
RDI += target_pc - pc - 1; with an unknown target (held in R11),
RDI -= pc + 1 then RDI += R11. -/
def emit_profile_instruction_count (pc : Nat) (target_pc : Option Nat)
    (s : EmitState) : EmitState :=
  match target_pc with
  | some t => push s (.meterAddImm ((t : Int) - (pc : Int) - 1))
  | none => push (push s (.meterSubImm (pc + 1))) .meterAddTargetReg

/-- Embedding of `emit_validate_and_profile_instruction_count`. -/
def emit_validate_and_profile_instruction_count (cfg : Config) (exclusive : Bool)
    (pc : Nat) (target_pc : Option Nat) (s : EmitState) : EmitState :=
  if cfg.enable_instruction_meter then
    emit_profile_instruction_count pc target_pc
      (emit_validate_instruction_count cfg exclusive (some pc) s)
  else s

/-- Embedding of `emit_undo_profile_instruction_count`:
RDI += (pc + 1) - target_pc. -/
def emit_undo_profile_instruction_count (cfg : Config) (pc : Nat) (target_pc : Nat)
    (s : EmitState) : EmitState :=
  if cfg.enable_instruction_meter then
    push s (.meterAddImm ((pc : Int) + 1 - (target_pc : Int)))
  else s

/-! ## Per-instruction emission (the match arms of `compile`,
src/src/jit.rs lines 394-654, and the helpers they call) -/

/-- Target of an internal call (`emit_internal_call`'s `dst` argument). -/
inductive CallDst where
  | reg (r : Nat)
  | const (target_pc : Nat)
deriving DecidableEq, Repr

/-- Embedding of `emit_internal_call` (src/src/jit.rs lines 935-977). -/
def emit_internal_call (cfg : Config) (pc : Nat) (dst : CallDst)
    (s : EmitState) : EmitState :=
  let s := push s (.loadImmR11 pc)
  let s := push s (.callAnchor ANCHOR_ANCHOR_INTERNAL_FUNCTION_CALL_PROLOGUE)
  let s :=
    match dst with
    | .reg _ =>
        let s := push s .other
        let s := push s (.callAnchor ANCHOR_ANCHOR_INTERNAL_FUNCTION_CALL_REG)
        let s := emit_validate_and_profile_instruction_count cfg false pc none s
        let s := push s .other
        push s .callR10
    | .const target_pc =>
        let s := emit_validate_and_profile_instruction_count cfg false pc (some target_pc) s
        let s := push s (.loadImmR11 target_pc)
        push s (.callTargetPc target_pc)
  let s := emit_undo_profile_instruction_count cfg pc 0 s
  push s .other

/-- Embedding of the `ebpf::JA` arm of `compile`. -/
def emit_ja (cfg : Config) (pc target_pc : Nat) (s : EmitState) : EmitState :=
  let s := emit_validate_and_profile_instruction_count cfg false pc (some target_pc) s
  let s := push s (.loadImmR11 target_pc)
  push s (.jumpTargetPc target_pc)

/-- Embedding of `emit_conditional_branch_imm` and
`emit_conditional_branch_reg` (src/src/jit.rs lines 1045-1078): the two
differ only in how the compared operands are materialised, which is
abstracted into the single `EOp.other`. -/
def emit_conditional_branch (cfg : Config) (pc target_pc : Nat)
    (s : EmitState) : EmitState :=
  let s := emit_validate_and_profile_instruction_count cfg false pc (some target_pc) s
  let s := push s .other
  let s := push s (.loadImmR11 target_pc)
  let s := push s (.condJumpTargetPc target_pc)
  emit_undo_profile_instruction_count cfg pc target_pc s

/-- Embedding of the `ebpf::EXIT` arm of `compile`
(src/src/jit.rs lines 626-651). -/
def emit_exit (cfg : Config) (pc : Nat) (s : EmitState) : EmitState :=
  let s := push s .other
  let s := if cfg.enable_instruction_meter then push s (.loadImmR11 pc) else s
  let s := push s (.condJumpAnchor ANCHOR_EXIT)
  let s := push s .other
  let s := if !cfg.dynamic_stack_frames then push s .other else s
  let s := emit_validate_and_profile_instruction_count cfg false pc (some 0) s
  push s .other

/-- Embedding of the `ebpf::CALL_IMM` arm of `compile`
(src/src/jit.rs lines 591-622).  Whether the key resolves externally or
internally is passed in, abstracting the loader / executable lookups that
live outside src/. -/
def emit_call_imm (cfg : Config) (pc : Nat) (srcIsZero : Bool)
    (externalResolves : Bool) (internalTarget : Option Nat)
    (s : EmitState) : EmitState :=
  let external := if cfg.static_syscalls then srcIsZero else true
  let internal := if cfg.static_syscalls then !srcIsZero else true
  let res1 :=
    if external && externalResolves then
      let s := emit_validate_and_profile_instruction_count cfg true pc (some 0) s
      let s := push s .other
      let s := push s (.callAnchor ANCHOR_EXTERNAL_FUNCTION_CALL)
      (emit_undo_profile_instruction_count cfg pc 0 s, true)
    else (s, false)
  let res2 :=
    if internal then
      match internalTarget with
      | some t => (emit_internal_call cfg pc (.const t) res1.1, true)
      | none => res1
    else res1
  if !res2.2 then
    push (push res2.1 (.loadImmR11 pc)) (.jumpAnchor ANCHOR_CALL_UNSUPPORTED_INSTRUCTION)
  else res2.1

/-- Embedding of `emit_address_translation` (src/src/jit.rs lines
979-1043): compute the vm address (and value, for stores) — abstracted —
then, with address translation enabled, push the pc and call the
translation anchor of the matching access type and width; otherwise emit
the direct unchecked access. -/
def emit_address_translation (cfg : Config) (pc : Nat) (isStore : Bool) (width : Nat)
    (s : EmitState) : EmitState :=
  let s := push s .other
  if cfg.enable_address_translation then
    let s := push s (.pushImmPc pc)
    push s (.callAnchor
      (ANCHOR_TRANSLATE_MEMORY_ADDRESS + width.log2 + 4 * (if isStore then 1 else 0)))
  else push s .other

/-! ## The compile loop (src/src/jit.rs lines 367-671)

The bytecode is modelled at the granularity `compile` matches on: one
`Insn` per instruction slot (two slots for `lddw`).  The numeric opcode
tables live in ebpf.rs outside src/, so the constructors below name the
match arms of `compile` rather than opcode bytes; arms whose lowering
emits neither meter accounting nor recorded control transfers are grouped
by the helper they call. -/

inductive Insn where
  /-- add64/sub64 immediate on the stack-pointer register r11 under
  dynamic stack frames (the first match arm). -/
  | stackPtrOp
  | lddw (dst : Nat) (imm : Int)
  /-- the BPF_LDX, BPF_ST and BPF_STX classes: all route through
  `emit_address_translation` with the given access type and width. -/
  | memAccess (isStore : Bool) (width : Nat)
  /-- ALU instructions whose lowering is meter-free: the sanitized-alu
  family, register ALU forms, shifts, neg, mov-reg, endianness
  intrinsics.  Lowered entirely to unrecorded instructions. -/
  | aluOther
  /-- mul/div/sdiv/mod (`emit_muldivmod`): meter-free, but can emit
  conditional jumps to the divide-error anchors — no claim observes these,
  so the lowering is collapsed like `aluOther`. -/
  | muldivmod
  /-- mov32/mov64 immediate: a (possibly sanitized) immediate load. -/
  | movImm (is64 : Bool) (dst : Nat) (imm : Int)
  | ja (off : Int)
  /-- any of the 20 conditional jump forms (both imm and reg variants). -/
  | condBranch (off : Int)
  | callImm (srcIsZero : Bool) (key : Nat)
  | callReg (r : Nat)
  | exit
deriving DecidableEq, Repr

/-- Entries of the pc-section: a pointer to the instruction's emitted code
(identified by its bpf pc), a pointer to an anchor, or not yet written. -/
inductive PcEntry where
  | unset
  | textOffset (pc : Nat)
  | anchor (a : Nat)
deriving DecidableEq, Repr

def setEntry (f : Nat → PcEntry) (i : Nat) (v : PcEntry) : Nat → PcEntry :=
  fun n => if n = i then v else f n

/-- Compiler state threaded through the compile loop. -/
structure CompState where
  emit : EmitState
  pc : Nat
  pc_section : Nat → PcEntry

def onEmit (st : CompState) (f : EmitState → EmitState) : CompState :=
  { st with emit := f st.emit }

/-- Resolution environment for `CALL_IMM`: the loader's external-function
lookup and the executable's internal-function registry (both live outside
src/ and are parameters of the model). -/
structure CompileParams where
  externLookup : Nat → Bool
  internalLookup : Nat → Option Nat

/-- Branch target computation `(self.pc as isize + insn.off as isize + 1)
as usize` (negative values never survive verification and are clamped). -/
def branchTarget (pc : Nat) (off : Int) : Nat := ((pc : Int) + off + 1).toNat

/-- Embedding of the checkpoint emission at the head of the compile loop
(src/src/jit.rs lines 379-382). -/
def instruction_meter_checkpoint (cfg : Config) (st : CompState) : CompState :=
  if st.emit.last_instruction_meter_validation_pc
      + cfg.instruction_meter_checkpoint_distance ≤ st.pc then
    onEmit st (emit_validate_instruction_count cfg true (some st.pc))
  else st

/-- Embedding of the tracing emission in the compile loop
(src/src/jit.rs lines 384-388). -/
def trace_emission (cfg : Config) (st : CompState) : CompState :=
  if cfg.enable_instruction_tracing then
    onEmit st (fun e =>
      push (push (push e (.loadImmR11 st.pc)) (.callAnchor ANCHOR_TRACE)) (.loadImmR11 0))
  else st

/-- One iteration of the compile loop: write the pc-section entry of the
current pc, emit a checkpoint if due, emit tracing if enabled, then emit
the instruction and advance the pc (by 2 for `lddw`, whose second slot's
pc-section entry is pointed at the unsupported-instruction anchor). -/
def compileStep (cfg : Config) (P : CompileParams) (st : CompState) (i : Insn) : CompState :=
  let st := { st with pc_section := setEntry st.pc_section st.pc (.textOffset st.pc) }
  let st := instruction_meter_checkpoint cfg st
  let st := trace_emission cfg st
  match i with
  | .stackPtrOp =>
      let st := onEmit st (fun e => push e .other)
      { st with pc := st.pc + 1 }
  | .lddw _ _ =>
      let st := onEmit st
        (emit_validate_and_profile_instruction_count cfg true st.pc (some (st.pc + 2)))
      let st := { st with
        pc_section := setEntry st.pc_section (st.pc + 1)
          (.anchor ANCHOR_CALL_UNSUPPORTED_INSTRUCTION) }
      let st := onEmit st (fun e => push e .other)
      { st with pc := st.pc + 2 }
  | .memAccess isStore width =>
      let st := onEmit st (emit_address_translation cfg st.pc isStore width)
      { st with pc := st.pc + 1 }
  | .aluOther =>
      let st := onEmit st (fun e => push e .other)
      { st with pc := st.pc + 1 }
  | .muldivmod =>
      let st := onEmit st (fun e => push e .other)
      { st with pc := st.pc + 1 }
  | .movImm _ _ _ =>
      let st := onEmit st (fun e => push e .other)
      { st with pc := st.pc + 1 }
  | .ja off =>
      let st := onEmit st (emit_ja cfg st.pc (branchTarget st.pc off))
      { st with pc := st.pc + 1 }
  | .condBranch off =>
      let st := onEmit st (emit_conditional_branch cfg st.pc (branchTarget st.pc off))
      { st with pc := st.pc + 1 }
  | .callImm srcIsZero key =>
      let st := onEmit st
        (emit_call_imm cfg st.pc srcIsZero (P.externLookup key) (P.internalLookup key))
      { st with pc := st.pc + 1 }
  | .callReg r =>
      let st := onEmit st (emit_internal_call cfg st.pc (.reg r))
      { st with pc := st.pc + 1 }
  | .exit =>
      let st := onEmit st (emit_exit cfg st.pc)
      { st with pc := st.pc + 1 }

def compileAll (cfg : Config) (P : CompileParams) : CompState → List Insn → CompState
  | st, [] => st
  | st, i :: rest => compileAll cfg P (compileStep cfg P st i) rest

/-- Embedding of the meter-relevant skeleton of `emit_subroutines`
(src/src/jit.rs lines 1216-1490); each anchor's body is reduced to its
meter operations, recorded control transfers, and `.other` fillers. -/
def emit_subroutines (cfg : Config) (s : EmitState) : EmitState :=
  let s := if cfg.enable_instruction_tracing then push s .other else s
  let s := if cfg.enable_instruction_meter
    then pushList s [.meterSubImm 1, .meterSubTargetReg] else s
  let s := push s .other
  let s := push s .other
  let s := push s .other
  let s := push s .other
  let s := emit_validate_instruction_count cfg false none s
  let s := pushList s [.other, .jumpAnchor ANCHOR_EPILOGUE]
  let s := emit_validate_instruction_count cfg false none s
  let s := push s (.jumpAnchor ANCHOR_THROW_EXCEPTION_UNCHECKED)
  let s := pushList s [.other, .jumpAnchor ANCHOR_THROW_EXCEPTION]
  let s := pushList s [.other, .jumpAnchor ANCHOR_THROW_EXCEPTION]
  let s := pushList s [.other, .jumpAnchor ANCHOR_THROW_EXCEPTION]
  let s := pushList s [.other, .jumpAnchor ANCHOR_THROW_EXCEPTION]
  let s := pushList s [.other, .jumpAnchor ANCHOR_THROW_EXCEPTION]
  let s := if cfg.enable_instruction_tracing
    then pushList s [.callAnchor ANCHOR_TRACE] else s
  let s := pushList s [.other, .jumpAnchor ANCHOR_THROW_EXCEPTION]
  let s := push s .other
  let s := if cfg.enable_instruction_meter then push s .meterContextBilling else s
  let s := push s .other
  let s := if cfg.enable_instruction_meter then push s .meterContextBilling else s
  let s := push s .other
  let s := pushList s [.other, .condJumpAnchor ANCHOR_CALL_DEPTH_EXCEEDED, .other]
  let s := pushList s [.other, .condJumpAnchor ANCHOR_CALL_OUTSIDE_TEXT_SEGMENT,
    .other, .condJumpAnchor ANCHOR_CALL_OUTSIDE_TEXT_SEGMENT, .other]
  let s := pushList s [.other, .condJumpAnchor ANCHOR_ACCESS_VIOLATION, .other]
  s

/-- Embedding of the out-of-bounds bumper after the compile loop
(src/src/jit.rs lines 659-666). -/
def emit_bumper (cfg : Config) (pc : Nat) (s : EmitState) : EmitState :=
  let s := emit_validate_and_profile_instruction_count cfg true pc (some (pc + 2)) s
  let s := push s (.loadImmR11 pc)
  let s := push s .other
  push s (.jumpAnchor ANCHOR_THROW_EXCEPTION)

/-- Overwrite `[lo, hi)` of the pc-section with `v` (the inner `for pc in
prev_pc..current_pc` loops of `resolve_jumps`). -/
def patchRange (f : Nat → PcEntry) (lo hi : Nat) (v : PcEntry) : Nat → PcEntry :=
  fun n => if lo ≤ n ∧ n < hi then v else f n

/-- Embedding of the static-syscalls patch loop of `resolve_jumps`
(src/src/jit.rs lines 1530-1546): walk the registry keys in iteration
order, overwriting every pc-section entry outside the keys with the
unsupported-instruction anchor; a key at or beyond the pc-section length
stops the walk and the tail is overwritten wholesale. -/
def resolveLoop (len : Nat) : List Nat → Nat → (Nat → PcEntry) → (Nat → PcEntry)
  | [], prev_pc, f =>
      patchRange f prev_pc len (.anchor ANCHOR_CALL_UNSUPPORTED_INSTRUCTION)
  | k :: ks, prev_pc, f =>
      if len ≤ k then
        patchRange f prev_pc len (.anchor ANCHOR_CALL_UNSUPPORTED_INSTRUCTION)
      else
        resolveLoop len ks (k + 1)
          (patchRange f prev_pc k (.anchor ANCHOR_CALL_UNSUPPORTED_INSTRUCTION))

/-- Embedding of the pc-section patching of `resolve_jumps` (the
forward-jump relocations write into the text section, not the
pc-section, and are not modelled). -/
def resolve_jumps (cfg : Config) (registryKeys : List Nat) (len : Nat)
    (f : Nat → PcEntry) : Nat → PcEntry :=
  if cfg.static_syscalls then resolveLoop len registryKeys 0 f else f

/-- Initial compiler state. -/
def initState : CompState :=
  { emit := emptyEmit, pc := 0, pc_section := fun _ => .unset }

/-- Embedding of `compile` end to end: subroutines, the loop, the bumper,
and the pc-section patching of `resolve_jumps`. -/
def jit_compile (cfg : Config) (P : CompileParams) (registryKeys : List Nat)
    (prog : List Insn) : CompState :=
  let st := onEmit initState (emit_subroutines cfg)
  let st := compileAll cfg P st prog
  let st := onEmit st (emit_bumper cfg st.pc)
  { st with pc_section := resolve_jumps cfg registryKeys st.pc st.pc_section }

/-- Instruction-meter accounting operations among the emitted stream. -/
def meterOps (s : EmitState) : List EOp := s.ops.filter (fun o => isMeterOp o)

/-- Concrete configuration with the instruction meter enabled, used by the
witnesses. -/
def testConfigMeterOn : Config :=
  { enable_instruction_meter := true,
    instruction_meter_checkpoint_distance := 10000,
    enable_instruction_tracing := false,
    enable_sdiv := false,
    enable_address_translation := true,
    enable_stack_frame_gaps := false,
    dynamic_stack_frames := false,
    static_syscalls := true,
    sanitize_user_provided_values := true,
    noop_instruction_rate := 0,
    stack_frame_size := 4096,
    max_call_depth := 20,
    runtime_environment_key := 0 }

/-- Concrete configuration with the instruction meter disabled. -/
def testConfigMeterOff : Config :=
  { testConfigMeterOn with enable_instruction_meter := false }

/-- C2: with the instruction meter enabled, every branch lowering emits
exactly the claimed meter pattern: a compare of the meter register against
the validation limit pc + 1 with a conditional jump to the
exceeded-max-instructions anchor, followed by the additive adjustment
target_pc - (pc + 1) (performed as subtract pc + 1 / add the target
register when the target of a register-indirect call is dynamic); the
fall-through of a conditional branch and the return of an internal call
additionally get the inverse adjustment (pc + 1) - target_pc, the return
using target pc 0; EXIT profiles towards target pc 0.  The final two
conjuncts are the invariant algebra: the adjustment turns a meter equal to
remaining budget + pc into remaining budget - 1 + target_pc, and the undo
adjustment cancels the adjustment exactly. -/
theorem c2_branch_meter_accounting (cfg : Config)
    (h : cfg.enable_instruction_meter = true) (pc t r : Nat) :
    meterOps (emit_ja cfg pc t emptyEmit)
      = [.validateMeter false pc, .meterAddImm ((t : Int) - ((pc : Int) + 1))]
    ∧ meterOps (emit_conditional_branch cfg pc t emptyEmit)
      = [.validateMeter false pc, .meterAddImm ((t : Int) - ((pc : Int) + 1)),
         .meterAddImm (((pc : Int) + 1) - (t : Int))]
    ∧ meterOps (emit_internal_call cfg pc (.const t) emptyEmit)
      = [.validateMeter false pc, .meterAddImm ((t : Int) - ((pc : Int) + 1)),
         .meterAddImm (((pc : Int) + 1) - 0)]
    ∧ meterOps (emit_internal_call cfg pc (.reg r) emptyEmit)
      = [.validateMeter false pc, .meterSubImm (pc + 1), .meterAddTargetReg,
         .meterAddImm (((pc : Int) + 1) - 0)]
    ∧ meterOps (emit_exit cfg pc emptyEmit)
      = [.validateMeter false pc, .meterAddImm ((0 : Int) - ((pc : Int) + 1))]
    ∧ (∀ rem : Int, (rem + (pc : Int)) + ((t : Int) - ((pc : Int) + 1)) = (rem - 1) + t)
    ∧ ((t : Int) - ((pc : Int) + 1)) + (((pc : Int) + 1) - (t : Int)) = 0 := by
  refine ⟨?_, ?_, ?_, ?_, ?_, fun rem => by ring, by ring⟩
  · simp [emit_ja, emit_validate_and_profile_instruction_count,
      emit_validate_instruction_count, emit_profile_instruction_count,
      meterOps, push, emptyEmit, h, isMeterOp]
    omega
  · simp [emit_conditional_branch, emit_validate_and_profile_instruction_count,
      emit_validate_instruction_count, emit_profile_instruction_count,
      emit_undo_profile_instruction_count, meterOps, push, emptyEmit, h, isMeterOp]
    omega
  · simp [emit_internal_call, emit_validate_and_profile_instruction_count,
      emit_validate_instruction_count, emit_profile_instruction_count,
      emit_undo_profile_instruction_count, meterOps, push, emptyEmit, h, isMeterOp]
    omega
  · simp [emit_internal_call, emit_validate_and_profile_instruction_count,
      emit_validate_instruction_count, emit_profile_instruction_count,
      emit_undo_profile_instruction_count, meterOps, push, emptyEmit, h, isMeterOp]
  · rcases hd : cfg.dynamic_stack_frames <;>
      (simp [emit_exit, emit_validate_and_profile_instruction_count,
        emit_validate_instruction_count, emit_profile_instruction_count,
        meterOps, push, emptyEmit, h, hd, isMeterOp]; omega)

/-- C2 witness: the pattern at a concrete branch (pc = 3, target 7). -/
theorem c2_branch_meter_accounting_witness :
    meterOps (emit_ja testConfigMeterOn 3 7 emptyEmit)
      = [.validateMeter false 3, .meterAddImm ((7 : Int) - ((3 : Int) + 1))]
    ∧ meterOps (emit_exit testConfigMeterOn 3 emptyEmit)
      = [.validateMeter false 3, .meterAddImm ((0 : Int) - ((3 : Int) + 1))] :=
  ⟨(c2_branch_meter_accounting testConfigMeterOn rfl 3 7 1).1,
   (c2_branch_meter_accounting testConfigMeterOn rfl 3 7 1).2.2.2.2.1⟩

/-! ## Register-indirect call dispatch (claim C3) -/

/-- Error kinds raised by the modelled runtime paths of the emitted code. -/
inductive JitError where
  | callOutsideTextSegment
  | callDepthExceeded (pc : Nat) (limit : Nat)
deriving DecidableEq, Repr

/-- Size of one bpf instruction slot.  Declared in ebpf.rs (outside src/)
but pinned to 8 by the debug assertions in the call-reg anchor
(src/src/jit.rs lines 1421 and 1425). -/
def INSN_SIZE : Nat := 8

/-- Embedding of the `ANCHOR_ANCHOR_INTERNAL_FUNCTION_CALL_REG` subroutine
(src/src/jit.rs lines 1401-1431) as the function its straight-line machine
code computes on the vm target address held in RAX: clear the low three
address bits (`RAX &= !(INSN_SIZE - 1)`, which for a 64-bit value equals
rounding down to a multiple of 8), compare unsigned against the wrapped
upper bound `program_vm_addr + number_of_instructions * INSN_SIZE` (jump
to the CallOutsideTextSegment handler if at or above) and against the
lower bound `program_vm_addr` (jump if below), then subtract the base,
shift right by 3 to obtain the target pc, and load the pc-section entry at
it.  The `Except` result makes the diversion to the handler — on which no
pc-section lookup happens — explicit. -/
def anchor_internal_function_call_reg (program_vm_addr number_of_instructions : Nat)
    (pc_section : Nat → PcEntry) (addr : Nat) : Except JitError (Nat × PcEntry) :=
  if (program_vm_addr + number_of_instructions * INSN_SIZE) % W64
      ≤ INSN_SIZE * (addr / INSN_SIZE) then
    .error .callOutsideTextSegment
  else if INSN_SIZE * (addr / INSN_SIZE) < program_vm_addr then
    .error .callOutsideTextSegment
  else
    .ok ((INSN_SIZE * (addr / INSN_SIZE) - program_vm_addr) / INSN_SIZE,
      pc_section ((INSN_SIZE * (addr / INSN_SIZE) - program_vm_addr) / INSN_SIZE))

/-- C3: for a program region `[base, base + n*8)` that does not wrap, the
call-reg anchor raises CallOutsideTextSegment exactly when the
alignment-masked address falls below the region or at-or-beyond its end,
and otherwise returns the target pc `(masked - base) / 8`, which is a
valid index below n, together with the pc-section entry loaded there. -/
theorem c3_call_reg_bounds_check (base n addr : Nat) (pcs : Nat → PcEntry)
    (_haddr : addr < W64) (hbound : base + n * 8 < W64) :
    (anchor_internal_function_call_reg base n pcs addr = .error .callOutsideTextSegment
       ↔ 8 * (addr / 8) < base ∨ base + n * 8 ≤ 8 * (addr / 8))
    ∧ ∀ t e, anchor_internal_function_call_reg base n pcs addr = .ok (t, e) →
        base ≤ 8 * (addr / 8) ∧ 8 * (addr / 8) < base + n * 8
          ∧ t = (8 * (addr / 8) - base) / 8 ∧ t < n ∧ e = pcs t := by
  have hmod : (base + n * INSN_SIZE) % W64 = base + n * 8 := by
    unfold INSN_SIZE
    exact Nat.mod_eq_of_lt hbound
  unfold anchor_internal_function_call_reg
  rw [hmod]
  unfold INSN_SIZE
  by_cases h1 : base + n * 8 ≤ 8 * (addr / 8)
  · rw [if_pos h1]
    refine ⟨⟨fun _ => Or.inr h1, fun _ => rfl⟩, fun t e ht => ?_⟩
    simp at ht
  · rw [if_neg h1]
    by_cases h2 : 8 * (addr / 8) < base
    · rw [if_pos h2]
      refine ⟨⟨fun _ => Or.inl h2, fun _ => rfl⟩, fun t e ht => ?_⟩
      simp at ht
    · rw [if_neg h2]
      refine ⟨⟨fun he => by simp at he, fun hd => by exfalso; omega⟩, fun t e ht => ?_⟩
      simp only [Except.ok.injEq, Prod.mk.injEq] at ht
      obtain ⟨ht1, ht2⟩ := ht
      subst ht1
      exact ⟨by omega, by omega, rfl, by omega, ht2.symm⟩

/-- C3 witness: program base 2^32 with 3 instructions; the in-range
address base + 10 masks down to base + 8 and resolves to target pc 1,
while base + 24 (one past the region) is rejected. -/
theorem c3_call_reg_bounds_check_witness :
    anchor_internal_function_call_reg 4294967296 3 (fun p => .textOffset p) 4294967306
      = .ok (1, .textOffset 1)
    ∧ anchor_internal_function_call_reg 4294967296 3 (fun p => .textOffset p) 4294967320
      = .error .callOutsideTextSegment := by
  have h := c3_call_reg_bounds_check 4294967296 3 4294967320
    (fun p => PcEntry.textOffset p) (by decide) (by decide)
  refine ⟨by rfl, h.1.mpr (by decide)⟩

/-! ## Internal-call prologue and call depth (claim C4) -/

/-- Runtime-environment fields the internal-call prologue touches. -/
structure EnvState where
  call_depth : Nat
  stack_pointer : Nat
deriving DecidableEq, Repr

/-- Stack-pointer effect of one internal call: advanced only in
fixed-frames mode, by `stack_frame_size` doubled when stack-frame gaps are
enabled (src/src/jit.rs lines 1391-1398). -/
def spAdvance (cfg : Config) (sp : Nat) : Nat :=
  if cfg.dynamic_stack_frames then sp
  else wadd64 sp (cfg.stack_frame_size * (if cfg.enable_stack_frame_gaps then 2 else 1))

/-- Embedding of the `ANCHOR_ANCHOR_INTERNAL_FUNCTION_CALL_PROLOGUE`
subroutine (src/src/jit.rs lines 1371-1399) as the function its code
computes on the environment: increment the call-depth slot, compare the
incremented depth (32-bit unsigned, hence the mod 2^32) against
`max_call_depth` and divert to the CallDepthExceeded handler — which
reports the configured limit — when it is reached; otherwise advance the
stack pointer in fixed-frames mode.  R11 holds the pc of the calling
instruction throughout. -/
def anchor_internal_function_call_prologue (cfg : Config) (pc : Nat) (env : EnvState) :
    Except JitError EnvState :=
  if cfg.max_call_depth % W32 ≤ (env.call_depth + 1) % W32 then
    .error (.callDepthExceeded pc cfg.max_call_depth)
  else
    .ok { call_depth := env.call_depth + 1,
          stack_pointer := spAdvance cfg env.stack_pointer }

/-- Nested internal calls: k prologues in sequence with no intervening
returns (the state reached by direct recursion of depth k). -/
def nestedCalls (cfg : Config) (pc : Nat) : Nat → EnvState → Except JitError EnvState
  | 0, env => .ok env
  | k + 1, env =>
      (anchor_internal_function_call_prologue cfg pc env).bind (nestedCalls cfg pc k)

/-- Iterated stack-pointer advance. -/
def spAdvanceIter (cfg : Config) : Nat → Nat → Nat
  | 0, sp => sp
  | k + 1, sp => spAdvanceIter cfg k (spAdvance cfg sp)

lemma nestedCalls_ok (cfg : Config) (pc : Nat) (hW : cfg.max_call_depth < W32) :
    ∀ (k d sp : Nat), d + k < cfg.max_call_depth →
      nestedCalls cfg pc k ⟨d, sp⟩
        = .ok ⟨d + k, spAdvanceIter cfg k sp⟩ := by
  intro k
  induction k with
  | zero => intro d sp _; rfl
  | succ k ih =>
      intro d sp hd
      unfold nestedCalls anchor_internal_function_call_prologue
      dsimp only
      rw [if_neg (by unfold W32 at *; omega)]
      simp only [Except.bind]
      have hcomm : d + 1 + k = d + (k + 1) := by omega
      rw [ih (d + 1) (spAdvance cfg sp) (by omega), hcomm]
      rfl

lemma nestedCalls_error (cfg : Config) (pc : Nat) (hW : cfg.max_call_depth < W32) :
    ∀ (k d sp : Nat), 1 ≤ k → d + k = cfg.max_call_depth →
      nestedCalls cfg pc k ⟨d, sp⟩
        = .error (.callDepthExceeded pc cfg.max_call_depth) := by
  intro k
  induction k with
  | zero => intro d sp hk _; omega
  | succ k ih =>
      intro d sp _ hd
      unfold nestedCalls anchor_internal_function_call_prologue
      dsimp only
      by_cases hke : k = 0
      · subst hke
        rw [if_pos (by unfold W32 at *; omega)]
        rfl
      · rw [if_neg (by unfold W32 at *; omega)]
        simp only [Except.bind]
        exact ih (d + 1) (spAdvance cfg sp) (by omega) (by omega)

/-- C4: every internal call — `emit_internal_call` is the single lowering
used by both the CALL_IMM-internal and the CALL_REG arms — starts by
loading its pc into R11 and calling the one shared prologue anchor; the
prologue increments the call depth, raises CallDepthExceeded carrying the
configured limit exactly when the incremented depth reaches
`max_call_depth`, and advances the stack pointer only in fixed-frames mode
(by `stack_frame_size`, doubled under stack-frame gaps, folded into
`spAdvance`); consequently recursion to depth `max_call_depth` errors with
CallDepthExceeded while depth `max_call_depth - 1` returns normally. -/
theorem c4_internal_call_depth (cfg : Config) (pc sp : Nat)
    (hW : cfg.max_call_depth < W32) (hmax : 1 ≤ cfg.max_call_depth) :
    (∀ dst : CallDst, (emit_internal_call cfg pc dst emptyEmit).ops.take 2
        = [.loadImmR11 pc, .callAnchor ANCHOR_ANCHOR_INTERNAL_FUNCTION_CALL_PROLOGUE])
    ∧ (∀ env : EnvState, env.call_depth + 1 < cfg.max_call_depth →
        anchor_internal_function_call_prologue cfg pc env
          = .ok { call_depth := env.call_depth + 1,
                  stack_pointer := spAdvance cfg env.stack_pointer })
    ∧ (∀ env : EnvState, env.call_depth + 1 < W32 →
        cfg.max_call_depth ≤ env.call_depth + 1 →
        anchor_internal_function_call_prologue cfg pc env
          = .error (.callDepthExceeded pc cfg.max_call_depth))
    ∧ nestedCalls cfg pc cfg.max_call_depth ⟨0, sp⟩
        = .error (.callDepthExceeded pc cfg.max_call_depth)
    ∧ nestedCalls cfg pc (cfg.max_call_depth - 1) ⟨0, sp⟩
        = .ok ⟨cfg.max_call_depth - 1, spAdvanceIter cfg (cfg.max_call_depth - 1) sp⟩ := by
  refine ⟨?_, ?_, ?_, ?_, ?_⟩
  · intro dst
    rcases hm : cfg.enable_instruction_meter <;> cases dst <;>
      simp [emit_internal_call, emit_validate_and_profile_instruction_count,
        emit_validate_instruction_count, emit_profile_instruction_count,
        emit_undo_profile_instruction_count, push, emptyEmit, hm]
  · intro env henv
    unfold anchor_internal_function_call_prologue
    rw [if_neg (by unfold W32 at *; omega)]
  · intro env h1 h2
    unfold anchor_internal_function_call_prologue
    rw [if_pos (by unfold W32 at *; omega)]
  · exact nestedCalls_error cfg pc hW cfg.max_call_depth 0 sp hmax (by omega)
  · simpa using nestedCalls_ok cfg pc hW (cfg.max_call_depth - 1) 0 sp (by omega)

/-- Concrete configuration with `max_call_depth` = 3, fixed frames, no
gaps. -/
def testConfigDepth3 : Config :=
  { testConfigMeterOn with max_call_depth := 3 }

/-- C4 witness: with `max_call_depth` = 3 and fixed 4096-byte frames,
three nested calls fail with CallDepthExceeded carrying the limit 3 while
two succeed having advanced the stack pointer to 8192. -/
theorem c4_internal_call_depth_witness :
    nestedCalls testConfigDepth3 5 3 ⟨0, 0⟩ = .error (.callDepthExceeded 5 3) ∧
    nestedCalls testConfigDepth3 5 2 ⟨0, 0⟩ = .ok ⟨2, 8192⟩ := by
  have h := c4_internal_call_depth testConfigDepth3 5 0 (by decide) (by decide)
  exact ⟨h.2.2.2.1, by rfl⟩

/-! ## Constant sanitization (claim C5) -/

/-- Register number of the x86 scratch register R11. -/
def R11 : Nat := 11

/-- Embedding of `should_sanitize_constant` (src/src/jit.rs lines
673-691) on the u64 bit pattern of the immediate: never sanitize with the
feature off; never sanitize the seven whole-byte runs of ones, a value
that fits one byte (`v <= 0xFF`), or a value whose bitwise complement fits
one byte (`!v <= 0xFF`); sanitize everything else. -/
def should_sanitize_constant (cfg : Config) (v : Nat) : Bool :=
  if !cfg.sanitize_user_provided_values then false
  else if v = 0xFFFF ∨ v = 0xFFFFFF ∨ v = 0xFFFFFFFF ∨ v = 0xFFFFFFFFFF
      ∨ v = 0xFFFFFFFFFFFF ∨ v = 0xFFFFFFFFFFFFFF ∨ v = 0xFFFFFFFFFFFFFFFF then false
  else if v ≤ 0xFF then false
  else if W64 - 1 - v ≤ 0xFF then false
  else true

/-- Spec-side predicate: a run of ones spanning 1 to 8 whole bytes. -/
def IsOnesRun (v : Nat) : Prop :=
  v = 0xFF ∨ v = 0xFFFF ∨ v = 0xFFFFFF ∨ v = 0xFFFFFFFF ∨ v = 0xFFFFFFFFFF
    ∨ v = 0xFFFFFFFFFFFF ∨ v = 0xFFFFFFFFFFFFFF ∨ v = 0xFFFFFFFFFFFFFFFF

/-- Spec-side predicate: a byte-wide constant — the value or its bitwise
complement fits in one byte. -/
def IsByteWide (v : Nat) : Prop := v ≤ 0xFF ∨ W64 - 1 - v ≤ 0xFF

/-- Operations emitted for immediate loads, with enough semantics to
evaluate them: 64-bit and 32-bit immediate loads (a 32-bit operation
zeroes the upper half), 64-bit and 32-bit immediate adds, a register add,
and the 32-bit rotate of a 64-bit register. -/
inductive SOp where
  | loadImm64 (dst : Nat) (v : Nat)
  | loadImm32 (dst : Nat) (v : Nat)
  | addImm64 (dst : Nat) (v : Nat)
  | addImm32 (dst : Nat) (v : Nat)
  | addReg64 (dst src : Nat)
  | rotr32 (dst : Nat)
deriving DecidableEq, Repr

def updReg (regs : Nat → Nat) (d v : Nat) : Nat → Nat :=
  fun n => if n = d then v else regs n

def evalSOp (regs : Nat → Nat) : SOp → (Nat → Nat)
  | .loadImm64 d v => updReg regs d (v % W64)
  | .loadImm32 d v => updReg regs d (v % W32)
  | .addImm64 d v => updReg regs d (wadd64 (regs d) v)
  | .addImm32 d v => updReg regs d ((regs d + v) % W32)
  | .addReg64 d s => updReg regs d (wadd64 (regs d) (regs s))
  | .rotr32 d => updReg regs d (rotr32of64 (regs d))

def evalSOps : List SOp → (Nat → Nat) → (Nat → Nat)
  | [], regs => regs
  | o :: rest, regs => evalSOps rest (evalSOp regs o)

/-- Wrapping 32-bit subtraction on bit patterns. -/
def wsub32 (a b : Nat) : Nat := (a % W32 + (W32 - b % W32)) % W32

/-- Operand sizes of the x86 emitter (src/src/jit.rs lines 217-224). -/
inductive OperandSize where
  | S0
  | S8
  | S16
  | S32
  | S64
deriving DecidableEq, Repr

/-- Embedding of `emit_sanitized_load_immediate` (src/src/jit.rs lines
732-765) on bit patterns, with the PRNG key `k` a parameter: S32 loads
`(value - key)` 32-bit then adds the key back; S64 into the scratch
register R11 uses the split key — load
`((value - lower).rotate_right(32) - upper)`, add upper (sign-extended
imm32), rotate right 32, add lower — because no second scratch register is
free; S64 of an i32-range value uses an i32 key sign-extended; general S64
loads the key into R11 and adds it as a register. -/
def emit_sanitized_load_immediate (size : OperandSize) (dst : Nat) (v k : Nat) : List SOp :=
  match size with
  | .S32 => [.loadImm32 dst (wsub32 v k), .addImm32 dst (k % W32)]
  | .S64 =>
      if dst = R11 then
        [.loadImm64 dst (wsub64 (rotr32of64 (wsub64 v (sext32 k))) (sext32 (k / W32))),
         .addImm64 dst (sext32 (k / W32)),
         .rotr32 dst,
         .addImm64 dst (sext32 k)]
      else if v < 2147483648 ∨ W64 - 2147483648 ≤ v then
        [.loadImm64 dst (wsub64 v (sext32 k)), .addImm64 dst (sext32 k)]
      else
        [.loadImm64 dst (wsub64 v k), .loadImm64 R11 k, .addReg64 dst R11]
  | _ => []

/-- Embedding of the immediate-load choice made by the `MOV32_IMM`,
`MOV64_IMM` and `LD_DW_IMM` arms of `compile`: sanitize when
`should_sanitize_constant` says so, else load the immediate directly. -/
def emit_load_immediate (cfg : Config) (size : OperandSize) (dst : Nat) (v k : Nat) :
    List SOp :=
  if should_sanitize_constant cfg v then emit_sanitized_load_immediate size dst v k
  else
    match size with
    | .S32 => [.loadImm32 dst v]
    | _ => [.loadImm64 dst v]

lemma wsub64_mod_right (a b : Nat) : wsub64 a (b % W64) = wsub64 a b := by
  unfold wsub64 W64
  omega

lemma wadd64_mod_right (a b : Nat) : wadd64 a (b % W64) = wadd64 a b := by
  unfold wadd64 W64
  omega

lemma evalSOps_sanitized_S64 (dst v k : Nat) (regs : Nat → Nat) (hv : v < W64) :
    evalSOps (emit_sanitized_load_immediate .S64 dst v k) regs dst = v := by
  unfold emit_sanitized_load_immediate
  by_cases h1 : dst = R11
  · rw [if_pos h1]
    simp only [evalSOps, evalSOp, updReg, eq_self_iff_true, if_true]
    rw [Nat.mod_eq_of_lt (wsub64_lt _ _),
        wadd64_wsub64 _ _ (rotr32of64_lt _),
        rotr32of64_rotr32of64 _ (wsub64_lt _ _),
        wadd64_wsub64 _ _ hv]
  · rw [if_neg h1]
    by_cases h2 : v < 2147483648 ∨ W64 - 2147483648 ≤ v
    · rw [if_pos h2]
      simp only [evalSOps, evalSOp, updReg, eq_self_iff_true, if_true]
      rw [Nat.mod_eq_of_lt (wsub64_lt _ _), wadd64_wsub64 _ _ hv]
    · rw [if_neg h2]
      simp only [evalSOps, evalSOp, updReg, eq_self_iff_true, if_true,
        h1, Ne.symm h1, if_false]
      rw [Nat.mod_eq_of_lt (wsub64_lt _ _), wadd64_mod_right, wadd64_wsub64 _ _ hv]

lemma evalSOps_sanitized_S32 (dst v k : Nat) (regs : Nat → Nat) :
    evalSOps (emit_sanitized_load_immediate .S32 dst v k) regs dst = v % W32 := by
  simp only [emit_sanitized_load_immediate, evalSOps, evalSOp, updReg,
    eq_self_iff_true, if_true]
  unfold wsub32 W32
  omega

/-- C5: with sanitization enabled, `should_sanitize_constant` holds
exactly for the immediates that are neither a run of ones nor byte-wide;
such immediates are emitted as a `(value - key) + key` sequence while the
others are loaded directly; and under wrapping 64-bit arithmetic every
emitted sequence — sanitized or direct, including the split-key rotate
variant chosen when the destination is R11 — reconstructs exactly the
original 64-bit value (the 32-bit form reconstructs the value modulo
2^32), for every value and every PRNG key. -/
theorem c5_sanitized_constants (cfg : Config) (v k dst : Nat) (regs : Nat → Nat)
    (hv : v < W64) (hs : cfg.sanitize_user_provided_values = true) :
    (should_sanitize_constant cfg v = true ↔ ¬ (IsOnesRun v ∨ IsByteWide v))
    ∧ (IsOnesRun v ∨ IsByteWide v → emit_load_immediate cfg .S64 dst v k = [.loadImm64 dst v])
    ∧ evalSOps (emit_load_immediate cfg .S64 dst v k) regs dst = v
    ∧ evalSOps (emit_sanitized_load_immediate .S64 dst v k) regs dst = v
    ∧ evalSOps (emit_sanitized_load_immediate .S32 dst v k) regs dst = v % W32 := by
  have hiff : should_sanitize_constant cfg v = true ↔ ¬ (IsOnesRun v ∨ IsByteWide v) := by
    unfold should_sanitize_constant IsOnesRun IsByteWide W64 at *
    rw [hs]
    simp only [Bool.not_true, Bool.false_eq_true, if_false]
    split_ifs with h1 h2 h3 <;> simp <;> omega
  refine ⟨hiff, fun hno => ?_, ?_,
    evalSOps_sanitized_S64 dst v k regs hv, evalSOps_sanitized_S32 dst v k regs⟩
  · have hsf : should_sanitize_constant cfg v = false := by
      rcases hb : should_sanitize_constant cfg v
      · rfl
      · exact absurd hno (hiff.mp hb)
    simp [emit_load_immediate, hsf]
  · unfold emit_load_immediate
    by_cases hb : should_sanitize_constant cfg v = true
    · rw [if_pos hb]
      exact evalSOps_sanitized_S64 dst v k regs hv
    · rw [if_neg hb]
      simp only [evalSOps, evalSOp, updReg, if_pos rfl]
      exact Nat.mod_eq_of_lt hv

/-- C5 witness: a sanitizable constant reconstructed through both the
plain and the R11 split-key sequences at concrete value and key. -/
theorem c5_sanitized_constants_witness :
    evalSOps (emit_sanitized_load_immediate .S64 0 81985529216486895 16045690984833335023)
      (fun _ => 0) 0 = 81985529216486895
    ∧ evalSOps (emit_sanitized_load_immediate .S64 R11 81985529216486895 16045690984833335023)
      (fun _ => 0) R11 = 81985529216486895 :=
  ⟨(c5_sanitized_constants testConfigMeterOn 81985529216486895 16045690984833335023 0
      (fun _ => 0) (by decide) rfl).2.2.2.1,
   (c5_sanitized_constants testConfigMeterOn 81985529216486895 16045690984833335023 R11
      (fun _ => 0) (by decide) rfl).2.2.2.1⟩

/-! ## Meter checkpoints and the meter-off guarantee (claim C6) -/

lemma meterOps_push_not (s : EmitState) (o : EOp) (ho : isMeterOp o = false) :
    meterOps (push s o) = meterOps s := by
  unfold meterOps push
  simp [List.filter_append, ho]

lemma emit_validate_off (cfg : Config) (hoff : cfg.enable_instruction_meter = false)
    (ex : Bool) (pc : Option Nat) (s : EmitState) :
    emit_validate_instruction_count cfg ex pc s = s := by
  unfold emit_validate_instruction_count
  simp [hoff]

lemma emit_validate_and_profile_off (cfg : Config)
    (hoff : cfg.enable_instruction_meter = false)
    (ex : Bool) (pc : Nat) (t : Option Nat) (s : EmitState) :
    emit_validate_and_profile_instruction_count cfg ex pc t s = s := by
  unfold emit_validate_and_profile_instruction_count
  simp [hoff]

lemma emit_undo_profile_off (cfg : Config) (hoff : cfg.enable_instruction_meter = false)
    (pc t : Nat) (s : EmitState) :
    emit_undo_profile_instruction_count cfg pc t s = s := by
  unfold emit_undo_profile_instruction_count
  simp [hoff]

lemma emit_ja_meterOps_off (cfg : Config) (hoff : cfg.enable_instruction_meter = false)
    (pc t : Nat) (s : EmitState) : meterOps (emit_ja cfg pc t s) = meterOps s := by
  unfold emit_ja
  simp only [emit_validate_and_profile_off cfg hoff]
  simp [meterOps, push, List.filter_append, isMeterOp]

lemma emit_conditional_branch_meterOps_off (cfg : Config)
    (hoff : cfg.enable_instruction_meter = false)
    (pc t : Nat) (s : EmitState) :
    meterOps (emit_conditional_branch cfg pc t s) = meterOps s := by
  unfold emit_conditional_branch
  simp only [emit_validate_and_profile_off cfg hoff, emit_undo_profile_off cfg hoff]
  simp [meterOps, push, List.filter_append, isMeterOp]

lemma emit_internal_call_meterOps_off (cfg : Config)
    (hoff : cfg.enable_instruction_meter = false)
    (pc : Nat) (dst : CallDst) (s : EmitState) :
    meterOps (emit_internal_call cfg pc dst s) = meterOps s := by
  cases dst <;>
    (simp only [emit_internal_call]
     simp only [emit_validate_and_profile_off cfg hoff, emit_undo_profile_off cfg hoff]
     simp [meterOps, push, List.filter_append, isMeterOp])

lemma emit_exit_meterOps_off (cfg : Config)
    (hoff : cfg.enable_instruction_meter = false)
    (pc : Nat) (s : EmitState) : meterOps (emit_exit cfg pc s) = meterOps s := by
  unfold emit_exit
  simp only [emit_validate_and_profile_off cfg hoff, hoff]
  split_ifs <;> simp_all [meterOps, push, List.filter_append, isMeterOp]

lemma emit_call_imm_meterOps_off (cfg : Config)
    (hoff : cfg.enable_instruction_meter = false)
    (pc : Nat) (srcZ er : Bool) (it : Option Nat) (s : EmitState) :
    meterOps (emit_call_imm cfg pc srcZ er it s) = meterOps s := by
  simp only [emit_call_imm]
  simp only [emit_validate_and_profile_off cfg hoff, emit_undo_profile_off cfg hoff]
  cases it with
  | none =>
      split_ifs <;> simp [meterOps, push, List.filter_append, isMeterOp]
  | some t =>
      dsimp only
      split_ifs <;>
        first
          | (rw [emit_internal_call_meterOps_off cfg hoff]
             try simp [meterOps, push, List.filter_append, isMeterOp]
             done)
          | (simp [meterOps, push, List.filter_append, isMeterOp]
             done)
          | simp_all [meterOps, push, List.filter_append, isMeterOp,
              emit_internal_call_meterOps_off cfg hoff]

lemma emit_address_translation_meterOps_off (cfg : Config)
    (pc : Nat) (isStore : Bool) (width : Nat) (s : EmitState) :
    meterOps (emit_address_translation cfg pc isStore width s) = meterOps s := by
  unfold emit_address_translation
  split_ifs <;> simp [meterOps, push, List.filter_append, isMeterOp]

lemma checkpoint_meterOps_off (cfg : Config)
    (hoff : cfg.enable_instruction_meter = false) (st : CompState) :
    meterOps (instruction_meter_checkpoint cfg st).emit = meterOps st.emit := by
  unfold instruction_meter_checkpoint
  split_ifs
  · dsimp only [onEmit]
    rw [emit_validate_off cfg hoff]
  · rfl

lemma trace_meterOps (cfg : Config) (st : CompState) :
    meterOps (trace_emission cfg st).emit = meterOps st.emit := by
  unfold trace_emission
  split_ifs
  · dsimp only [onEmit]
    simp [meterOps, push, List.filter_append, isMeterOp]
  · rfl

lemma compileStep_meterOps_off (cfg : Config) (P : CompileParams)
    (hoff : cfg.enable_instruction_meter = false) (st : CompState) (i : Insn) :
    meterOps (compileStep cfg P st i).emit = meterOps st.emit := by
  have hbase : ∀ st' : CompState,
      meterOps (trace_emission cfg (instruction_meter_checkpoint cfg st')).emit
        = meterOps st'.emit := fun st' => by
    rw [trace_meterOps, checkpoint_meterOps_off cfg hoff]
  cases i with
  | stackPtrOp =>
      simp only [compileStep, onEmit]
      rw [meterOps_push_not _ EOp.other rfl, hbase]
  | lddw dst imm =>
      simp only [compileStep, onEmit]
      rw [meterOps_push_not _ EOp.other rfl, emit_validate_and_profile_off cfg hoff, hbase]
  | memAccess isStore width =>
      simp only [compileStep, onEmit]
      rw [emit_address_translation_meterOps_off, hbase]
  | aluOther =>
      simp only [compileStep, onEmit]
      rw [meterOps_push_not _ EOp.other rfl, hbase]
  | muldivmod =>
      simp only [compileStep, onEmit]
      rw [meterOps_push_not _ EOp.other rfl, hbase]
  | movImm is64 dst imm =>
      simp only [compileStep, onEmit]
      rw [meterOps_push_not _ EOp.other rfl, hbase]
  | ja off =>
      simp only [compileStep, onEmit]
      rw [emit_ja_meterOps_off cfg hoff, hbase]
  | condBranch off =>
      simp only [compileStep, onEmit]
      rw [emit_conditional_branch_meterOps_off cfg hoff, hbase]
  | callImm srcZ key =>
      simp only [compileStep, onEmit]
      rw [emit_call_imm_meterOps_off cfg hoff, hbase]
  | callReg r =>
      simp only [compileStep, onEmit]
      rw [emit_internal_call_meterOps_off cfg hoff, hbase]
  | exit =>
      simp only [compileStep, onEmit]
      rw [emit_exit_meterOps_off cfg hoff, hbase]

lemma compileAll_meterOps_off (cfg : Config) (P : CompileParams)
    (hoff : cfg.enable_instruction_meter = false) :
    ∀ (prog : List Insn) (st : CompState),
      meterOps (compileAll cfg P st prog).emit = meterOps st.emit
  | [], _ => rfl
  | i :: rest, st => by
      rw [compileAll, compileAll_meterOps_off cfg P hoff rest _,
        compileStep_meterOps_off cfg P hoff st i]

lemma emit_subroutines_meterOps_off (cfg : Config)
    (hoff : cfg.enable_instruction_meter = false) (s : EmitState) :
    meterOps (emit_subroutines cfg s) = meterOps s := by
  simp only [emit_subroutines, emit_validate_off cfg hoff, hoff]
  split_ifs <;>
    simp_all [meterOps, push, pushList, List.filter_append, isMeterOp]

lemma emit_bumper_meterOps_off (cfg : Config)
    (hoff : cfg.enable_instruction_meter = false) (pc : Nat) (s : EmitState) :
    meterOps (emit_bumper cfg pc s) = meterOps s := by
  simp only [emit_bumper, emit_validate_and_profile_off cfg hoff]
  simp [meterOps, push, List.filter_append, isMeterOp]

/-- C6: during compilation with the meter enabled, a checkpoint (the
exclusive meter validation at the current pc) is emitted at the head of an
iteration exactly when the current pc lies at least
`instruction_meter_checkpoint_distance` beyond the recorded pc of the last
emitted validation, and the recorded pc is updated to the current pc, so
that after the checkpoint phase of every iteration the distance from the
current pc to the last validation is strictly below the checkpoint
distance; and with the meter disabled the whole compilation — subroutines,
loop, checkpoints and bumper — emits no meter validation, profiling or
checkpoint operation at all. -/
theorem c6_meter_checkpoint_policy (cfg : Config) (P : CompileParams) :
    (cfg.enable_instruction_meter = true →
      (∀ st : CompState,
        (st.emit.last_instruction_meter_validation_pc
            + cfg.instruction_meter_checkpoint_distance ≤ st.pc →
          (instruction_meter_checkpoint cfg st).emit.ops
            = st.emit.ops ++ [.validateMeter true st.pc]
          ∧ (instruction_meter_checkpoint cfg st).emit.last_instruction_meter_validation_pc
            = st.pc)
        ∧ (st.pc < st.emit.last_instruction_meter_validation_pc
            + cfg.instruction_meter_checkpoint_distance →
          instruction_meter_checkpoint cfg st = st))
      ∧ (1 ≤ cfg.instruction_meter_checkpoint_distance →
        ∀ st : CompState,
          st.pc < (instruction_meter_checkpoint cfg st).emit.last_instruction_meter_validation_pc
            + cfg.instruction_meter_checkpoint_distance))
    ∧ (cfg.enable_instruction_meter = false →
      ∀ (prog : List Insn) (keys : List Nat),
        meterOps (jit_compile cfg P keys prog).emit = []) := by
  constructor
  · intro hon
    constructor
    · intro st
      constructor
      · intro hdue
        unfold instruction_meter_checkpoint
        rw [if_pos hdue]
        unfold onEmit emit_validate_instruction_count
        simp [hon]
      · intro hnot
        unfold instruction_meter_checkpoint
        rw [if_neg (by omega)]
    · intro hdist st
      unfold instruction_meter_checkpoint
      by_cases hdue : st.emit.last_instruction_meter_validation_pc
          + cfg.instruction_meter_checkpoint_distance ≤ st.pc
      · rw [if_pos hdue]
        unfold onEmit emit_validate_instruction_count
        simp [hon]
        omega
      · rw [if_neg hdue]
        omega
  · intro hoff prog keys
    show meterOps (emit_bumper cfg
      (compileAll cfg P (onEmit initState (emit_subroutines cfg)) prog).pc
      (compileAll cfg P (onEmit initState (emit_subroutines cfg)) prog).emit) = []
    rw [emit_bumper_meterOps_off cfg hoff, compileAll_meterOps_off cfg P hoff]
    show meterOps (emit_subroutines cfg initState.emit) = []
    rw [emit_subroutines_meterOps_off cfg hoff]
    rfl

/-- C6 witness: a checkpoint fires at pc 10 with distance 10 and last
validation at 0, and a two-instruction program compiled with the meter off
emits no meter operation. -/
theorem c6_meter_checkpoint_policy_witness :
    (instruction_meter_checkpoint testConfigMeterOn
        { emit := { ops := [], last_instruction_meter_validation_pc := 0 },
          pc := 10000, pc_section := fun _ => .unset }).emit.ops
      = [.validateMeter true 10000]
    ∧ meterOps (jit_compile testConfigMeterOff
        { externLookup := fun _ => false, internalLookup := fun _ => none }
        [] [.movImm true 0 3054, .exit]).emit = [] := by
  have h := c6_meter_checkpoint_policy testConfigMeterOn
    { externLookup := fun _ => false, internalLookup := fun _ => none }
  have h2 := c6_meter_checkpoint_policy testConfigMeterOff
    { externLookup := fun _ => false, internalLookup := fun _ => none }
  exact ⟨((h.1 rfl).1 _).1 (by decide) |>.1,
    h2.2 rfl [.movImm true 0 3054, .exit] []⟩

/-! ## Pc-section entries of LD_DW_IMM second words (claim C9) -/

lemma checkpoint_pc (cfg : Config) (st : CompState) :
    (instruction_meter_checkpoint cfg st).pc = st.pc := by
  unfold instruction_meter_checkpoint
  split_ifs <;> rfl

lemma checkpoint_pc_section (cfg : Config) (st : CompState) :
    (instruction_meter_checkpoint cfg st).pc_section = st.pc_section := by
  unfold instruction_meter_checkpoint
  split_ifs <;> rfl

lemma trace_pc (cfg : Config) (st : CompState) :
    (trace_emission cfg st).pc = st.pc := by
  unfold trace_emission
  split_ifs <;> rfl

lemma trace_pc_section (cfg : Config) (st : CompState) :
    (trace_emission cfg st).pc_section = st.pc_section := by
  unfold trace_emission
  split_ifs <;> rfl

/-- Pc advance of one compile-loop iteration: 2 slots for lddw, 1 else. -/
def insnSlots : Insn → Nat
  | .lddw _ _ => 2
  | _ => 1

lemma compileStep_pc (cfg : Config) (P : CompileParams) (st : CompState) (i : Insn) :
    (compileStep cfg P st i).pc = st.pc + insnSlots i := by
  cases i <;>
    simp [compileStep, onEmit, trace_pc, checkpoint_pc, insnSlots]

lemma compileStep_pc_section_lt (cfg : Config) (P : CompileParams) (st : CompState)
    (i : Insn) (q : Nat) (hq : q < st.pc) :
    (compileStep cfg P st i).pc_section q = st.pc_section q := by
  have h1 : q ≠ st.pc := by omega
  have h2 : q ≠ st.pc + 1 := by omega
  cases i <;>
    simp [compileStep, onEmit, trace_pc_section, checkpoint_pc_section,
      trace_pc, checkpoint_pc, setEntry, h1, h2]

lemma compileAll_pc_section_lt (cfg : Config) (P : CompileParams) :
    ∀ (prog : List Insn) (st : CompState) (q : Nat), q < st.pc →
      (compileAll cfg P st prog).pc_section q = st.pc_section q
  | [], _, _, _ => rfl
  | i :: rest, st, q, hq => by
      rw [compileAll]
      rw [compileAll_pc_section_lt cfg P rest _ q
        (by rw [compileStep_pc]; omega)]
      exact compileStep_pc_section_lt cfg P st i q hq

lemma compileStep_lddw (cfg : Config) (P : CompileParams) (st : CompState)
    (dst : Nat) (imm : Int) :
    (compileStep cfg P st (.lddw dst imm)).pc_section (st.pc + 1)
      = .anchor ANCHOR_CALL_UNSUPPORTED_INSTRUCTION := by
  simp [compileStep, onEmit, trace_pc_section, checkpoint_pc_section,
    trace_pc, checkpoint_pc, setEntry]

/-- Bpf pcs occupied by the second word of an `lddw`, for a program laid
out starting at the given pc. -/
def lddwSecondSlots : Nat → List Insn → List Nat
  | _, [] => []
  | pc, .lddw _ _ :: rest => (pc + 1) :: lddwSecondSlots (pc + 2) rest
  | pc, _ :: rest => lddwSecondSlots (pc + 1) rest

lemma compileAll_lddw_slots (cfg : Config) (P : CompileParams) :
    ∀ (prog : List Insn) (st : CompState) (q : Nat), q ∈ lddwSecondSlots st.pc prog →
      (compileAll cfg P st prog).pc_section q
        = .anchor ANCHOR_CALL_UNSUPPORTED_INSTRUCTION := by
  intro prog
  induction prog with
  | nil => intro st q hq; simp [lddwSecondSlots] at hq
  | cons i rest ih =>
      intro st q hq
      cases i
      case lddw dst imm =>
        rw [lddwSecondSlots] at hq
        rw [compileAll]
        rcases List.mem_cons.mp hq with h | h
        · subst h
          rw [compileAll_pc_section_lt cfg P rest _ _
            (by rw [compileStep_pc]; simp [insnSlots])]
          exact compileStep_lddw cfg P st dst imm
        · apply ih
          simpa [compileStep_pc, insnSlots] using h
      all_goals
        (rw [compileAll]
         apply ih
         simpa [compileStep_pc, insnSlots, lddwSecondSlots] using hq)

lemma patchRange_anchor (f : Nat → PcEntry) (lo hi q : Nat)
    (h : f q = .anchor ANCHOR_CALL_UNSUPPORTED_INSTRUCTION) :
    patchRange f lo hi (.anchor ANCHOR_CALL_UNSUPPORTED_INSTRUCTION) q
      = .anchor ANCHOR_CALL_UNSUPPORTED_INSTRUCTION := by
  unfold patchRange
  split_ifs <;> simp [h]

lemma resolveLoop_anchor (len : Nat) :
    ∀ (keys : List Nat) (prev : Nat) (f : Nat → PcEntry) (q : Nat),
      f q = .anchor ANCHOR_CALL_UNSUPPORTED_INSTRUCTION →
      resolveLoop len keys prev f q = .anchor ANCHOR_CALL_UNSUPPORTED_INSTRUCTION
  | [], prev, f, q, h => patchRange_anchor f prev len q h
  | k :: ks, prev, f, q, h => by
      rw [resolveLoop]
      split_ifs
      · exact patchRange_anchor f prev len q h
      · exact resolveLoop_anchor len ks (k + 1) _ q (patchRange_anchor f prev k q h)

/-- C9: every `lddw` compiled by the loop leaves the pc-section entry of
its second instruction slot pointing at the unsupported-instruction
anchor, and this survives the later iterations (which only write entries
at or beyond their own pc) and `resolve_jumps` (whose static-syscalls
patching writes only that same anchor); hence a register-indirect call
resolving to the middle of an `lddw` pair dispatches to the
UnsupportedInstruction handler rather than into the upper immediate
word. -/
theorem c9_lddw_second_slot_unsupported (cfg : Config) (P : CompileParams)
    (keys : List Nat) (prog : List Insn) (q : Nat)
    (hq : q ∈ lddwSecondSlots 0 prog) :
    (jit_compile cfg P keys prog).pc_section q
      = .anchor ANCHOR_CALL_UNSUPPORTED_INSTRUCTION := by
  have hinner : (compileAll cfg P (onEmit initState (emit_subroutines cfg)) prog).pc_section q
      = .anchor ANCHOR_CALL_UNSUPPORTED_INSTRUCTION :=
    compileAll_lddw_slots cfg P prog (onEmit initState (emit_subroutines cfg)) q hq
  show resolve_jumps cfg keys
      (compileAll cfg P (onEmit initState (emit_subroutines cfg)) prog).pc
      (compileAll cfg P (onEmit initState (emit_subroutines cfg)) prog).pc_section q
    = .anchor ANCHOR_CALL_UNSUPPORTED_INSTRUCTION
  unfold resolve_jumps
  split_ifs
  · exact resolveLoop_anchor _ keys 0 _ q hinner
  · exact hinner

/-- C9 witness: for the program `lddw r0, 5; exit`, pc 1 (the second word
of the lddw) maps to the unsupported-instruction anchor. -/
theorem c9_lddw_second_slot_unsupported_witness :
    (jit_compile testConfigMeterOn
        { externLookup := fun _ => false, internalLookup := fun _ => none }
        [0] [.lddw 0 5, .exit]).pc_section 1
      = .anchor ANCHOR_CALL_UNSUPPORTED_INSTRUCTION :=
  c9_lddw_second_slot_unsupported testConfigMeterOn
    { externLookup := fun _ => false, internalLookup := fun _ => none }
    [0] [.lddw 0 5, .exit] 1 (by decide)

/-! ## Static-syscalls pc-section gating (claim C10)

The walk in `resolve_jumps` consumes the function-registry keys — which
in static-syscalls mode are the entry-point pcs — in ascending order: the
registry is a BTreeMap (declared in vm.rs outside src/) whose key
iteration is sorted, which the algorithm's single forward sweep relies
on.  The hypotheses below state that sortedness explicitly. -/

lemma resolveLoop_below_prev (len : Nat) :
    ∀ (keys : List Nat) (prev : Nat) (f : Nat → PcEntry) (q : Nat),
      q < prev → (∀ k ∈ keys, q < k) → resolveLoop len keys prev f q = f q
  | [], prev, f, q, hq, _ => by
      unfold resolveLoop patchRange
      rw [if_neg (by omega)]
  | k :: ks, prev, f, q, hq, hlt => by
      have hk0 : q < k := hlt k (List.mem_cons_self k ks)
      rw [resolveLoop]
      split_ifs with hk
      · unfold patchRange
        rw [if_neg (by omega)]
      · rw [resolveLoop_below_prev len ks (k + 1) _ q (by omega)
          (fun x hx => hlt x (List.mem_cons_of_mem k hx))]
        unfold patchRange
        rw [if_neg (by omega)]

lemma resolveLoop_unregistered (len : Nat) :
    ∀ (keys : List Nat) (prev : Nat) (f : Nat → PcEntry) (q : Nat),
      List.Pairwise (· < ·) keys → (∀ k ∈ keys, prev ≤ k) →
      prev ≤ q → q < len → q ∉ keys →
      resolveLoop len keys prev f q = .anchor ANCHOR_CALL_UNSUPPORTED_INSTRUCTION
  | [], prev, f, q, _, _, h1, h2, _ => by
      unfold resolveLoop patchRange
      rw [if_pos ⟨h1, h2⟩]
  | k :: ks, prev, f, q, hsort, hge, h1, h2, h3 => by
      have hpair := List.pairwise_cons.mp hsort
      have hqk : q ≠ k := fun h => h3 (h ▸ List.mem_cons_self k ks)
      have hqks : q ∉ ks := fun h => h3 (List.mem_cons_of_mem k h)
      rw [resolveLoop]
      split_ifs with hk
      · unfold patchRange
        rw [if_pos ⟨h1, h2⟩]
      · by_cases hlt : q < k
        · exact resolveLoop_anchor len ks (k + 1) _ q
            (by unfold patchRange; rw [if_pos ⟨h1, hlt⟩])
        · exact resolveLoop_unregistered len ks (k + 1) _ q hpair.2
            (fun x hx => hpair.1 x hx) (by omega) h2 hqks

lemma resolveLoop_registered (len : Nat) :
    ∀ (keys : List Nat) (prev : Nat) (f : Nat → PcEntry) (q : Nat),
      List.Pairwise (· < ·) keys → (∀ k ∈ keys, prev ≤ k) →
      q ∈ keys → q < len →
      resolveLoop len keys prev f q = f q
  | [], _, _, q, _, _, hmem, _ => absurd hmem (List.not_mem_nil q)
  | k :: ks, prev, f, q, hsort, hge, hmem, hlen => by
      have hpair := List.pairwise_cons.mp hsort
      rw [resolveLoop]
      rcases List.mem_cons.mp hmem with h | h
      · subst h
        rw [if_neg (by omega)]
        rw [resolveLoop_below_prev len ks (q + 1) _ q (by omega)
          (fun x hx => hpair.1 x hx)]
        unfold patchRange
        rw [if_neg (by omega)]
      · have hkq : k < q := hpair.1 q h
        rw [if_neg (by omega)]
        rw [resolveLoop_registered len ks (k + 1) _ q hpair.2
          (fun x hx => hpair.1 x hx) h hlen]
        unfold patchRange
        rw [if_neg (by omega)]

/-- C10: with static syscalls enabled and the registry keys sorted
ascending (BTreeMap iteration order), `resolve_jumps` overwrites every
pc-section entry below the pc-section length whose pc is not a registry
key with the unsupported-instruction anchor, leaves the entries at
registered pcs untouched, and consequently any entry that is not the
unsupported-instruction anchor belongs to a registered function entry
point — so a register-indirect call can only dispatch into the first
instruction of a registered function. -/
theorem c10_static_syscalls_registry_gate (cfg : Config) (keys : List Nat)
    (len : Nat) (f : Nat → PcEntry)
    (hstatic : cfg.static_syscalls = true)
    (hsorted : List.Pairwise (· < ·) keys) :
    (∀ q, q < len → q ∉ keys →
        resolve_jumps cfg keys len f q = .anchor ANCHOR_CALL_UNSUPPORTED_INSTRUCTION)
    ∧ (∀ q, q ∈ keys → q < len → resolve_jumps cfg keys len f q = f q)
    ∧ (∀ q, q < len →
        resolve_jumps cfg keys len f q ≠ .anchor ANCHOR_CALL_UNSUPPORTED_INSTRUCTION →
        q ∈ keys) := by
  unfold resolve_jumps
  rw [if_pos (by simp [hstatic])]
  refine ⟨fun q h1 h2 => ?_, fun q h1 h2 => ?_, fun q h1 h2 => ?_⟩
  · exact resolveLoop_unregistered len keys 0 f q hsorted
      (fun _ _ => Nat.zero_le _) (Nat.zero_le _) h1 h2
  · exact resolveLoop_registered len keys 0 f q hsorted
      (fun _ _ => Nat.zero_le _) h1 h2
  · by_contra hmem
    exact h2 (resolveLoop_unregistered len keys 0 f q hsorted
      (fun _ _ => Nat.zero_le _) (Nat.zero_le _) h1 hmem)

/-- C10 witness: keys {1, 3} over a 5-entry pc-section — entries 0, 2, 4
become the unsupported-instruction anchor, entries 1 and 3 survive. -/
theorem c10_static_syscalls_registry_gate_witness :
    resolve_jumps testConfigMeterOn [1, 3] 5 (fun p => .textOffset p) 2
      = .anchor ANCHOR_CALL_UNSUPPORTED_INSTRUCTION
    ∧ resolve_jumps testConfigMeterOn [1, 3] 5 (fun p => .textOffset p) 3
      = .textOffset 3 := by
  have h := c10_static_syscalls_registry_gate testConfigMeterOn [1, 3] 5
    (fun p => .textOffset p) rfl (by decide)
  exact ⟨h.1 2 (by decide) (by decide), h.2.1 3 (by decide) (by decide)⟩

/-! ## The requisite verifier (claims C7 and C8)

The verifier itself (src/verifier.rs) is not under src/ — only its test
suite (src/tests/verifier.rs) is — so the checks the two claims exercise
are modelled from the spec (section 4.E) and pinned by those tests. -/

/-- Modelled from the spec: the fixed offset added to every pc reported to
users so that disassembly line numbers match.  Declared in ebpf.rs outside
src/; its value 29 is pinned by src/tests/verifier.rs, where the error for
an instruction at pc 0 reports 29 (for example `UnknownOpCode(6, 29)`) and
the division by zero at pc 1 reports 30. -/
def ELF_INSN_DUMP_OFFSET : Nat := 29

/-- Bpf instruction word fields as the verifier sees them. -/
structure VInsn where
  opc : Nat
  dst : Nat
  src : Nat
  off : Int
  imm : Int
deriving DecidableEq, Repr

/-- Opcode constants of the canonical eBPF encoding (declared in ebpf.rs
outside src/; the values follow the class/source/operation bit fields the
spec names, for example `SDIV32_IMM = BPF_ALU | BPF_K | BPF_SDIV`). -/
def MOV32_IMM : Nat := 0xb4
def DIV32_IMM : Nat := 0x34
def SDIV32_IMM : Nat := 0xe4
def SDIV32_REG : Nat := 0xec
def SDIV64_IMM : Nat := 0xe7
def SDIV64_REG : Nat := 0xef
def EXIT_OPC : Nat := 0x95

/-- Verifier error kinds the modelled checks can raise. -/
inductive VerifierError where
  | divisionByZero (pc : Nat)
  | unknownOpCode (opc pc : Nat)
deriving DecidableEq, Repr

/-- Modelled from the spec (section 4.E, steps 2 and 5): the per-pc checks
of the requisite verifier that the claims' programs exercise — reject
disabled or unknown opcodes with `UnknownOpCode` (the four signed-division
opcodes are permitted only when `enable_sdiv` is set) and reject an
immediate divisor of zero with `DivisionByZero`; every reported pc carries
the fixed `ELF_INSN_DUMP_OFFSET`.  The remaining checks of the spec's
list (registers, shifts, jump targets, lddw pairing, function layout) are
vacuous on those programs and are not modelled. -/
def check_insn (cfg : Config) (pc : Nat) (insn : VInsn) : Except VerifierError Unit :=
  if insn.opc = MOV32_IMM then .ok ()
  else if insn.opc = DIV32_IMM then
    if insn.imm = 0 then .error (.divisionByZero (pc + ELF_INSN_DUMP_OFFSET)) else .ok ()
  else if insn.opc = SDIV32_IMM ∨ insn.opc = SDIV64_IMM then
    if !cfg.enable_sdiv then .error (.unknownOpCode insn.opc (pc + ELF_INSN_DUMP_OFFSET))
    else if insn.imm = 0 then .error (.divisionByZero (pc + ELF_INSN_DUMP_OFFSET))
    else .ok ()
  else if insn.opc = SDIV32_REG ∨ insn.opc = SDIV64_REG then
    if !cfg.enable_sdiv then .error (.unknownOpCode insn.opc (pc + ELF_INSN_DUMP_OFFSET))
    else .ok ()
  else if insn.opc = EXIT_OPC then .ok ()
  else .error (.unknownOpCode insn.opc (pc + ELF_INSN_DUMP_OFFSET))

/-- Modelled from the spec: the verifier's single pass, checking each
instruction at its pc in order and failing on the first violation. -/
def verify_from (cfg : Config) : Nat → List VInsn → Except VerifierError Unit
  | _, [] => .ok ()
  | pc, insn :: rest =>
      match check_insn cfg pc insn with
      | .ok () => verify_from cfg (pc + 1) rest
      | .error e => .error e

/-- The requisite verifier on a whole program. -/
def requisite_verify (cfg : Config) (prog : List VInsn) : Except VerifierError Unit :=
  verify_from cfg 0 prog

/-- The program `mov32 r0, 1; div32 r0, 0; exit`. -/
def progDivZero : List VInsn :=
  [{ opc := MOV32_IMM, dst := 0, src := 0, off := 0, imm := 1 },
   { opc := DIV32_IMM, dst := 0, src := 0, off := 0, imm := 0 },
   { opc := EXIT_OPC, dst := 0, src := 0, off := 0, imm := 0 }]

/-- C7: verifying `mov32 r0, 1; div32 r0, 0; exit` with the requisite
verifier fails with DivisionByZero at the div32 instruction, pc 1, and the
reported pc is 1 + ELF_INSN_DUMP_OFFSET = 30 — matching the expectation
`DivisionByZero(30)` of test_verifier_err_div_by_zero_imm in
src/tests/verifier.rs. -/
theorem c7_div_by_zero_rejected :
    requisite_verify testConfigMeterOn progDivZero
      = .error (.divisionByZero (1 + ELF_INSN_DUMP_OFFSET))
    ∧ 1 + ELF_INSN_DUMP_OFFSET = 30 := by
  constructor
  · rfl
  · rfl

/-- A one-instruction body followed by exit. -/
def progOf (insn : VInsn) : List VInsn :=
  [insn, { opc := EXIT_OPC, dst := 0, src := 0, off := 0, imm := 0 }]

/-- The four signed-division test bodies of test_sdiv_disabled:
`sdiv32 r0, 2`, `sdiv32 r0, r1`, `sdiv64 r0, 4`, `sdiv64 r0, r1`. -/
def sdivInsns : List VInsn :=
  [{ opc := SDIV32_IMM, dst := 0, src := 0, off := 0, imm := 2 },
   { opc := SDIV32_REG, dst := 0, src := 1, off := 0, imm := 0 },
   { opc := SDIV64_IMM, dst := 0, src := 0, off := 0, imm := 4 },
   { opc := SDIV64_REG, dst := 0, src := 1, off := 0, imm := 0 }]

/-- C8: for each of the four signed-division opcodes followed by exit, the
requisite verifier succeeds when `enable_sdiv` is true and fails with
`UnknownOpCode` carrying that opcode and the reported pc
(0 + ELF_INSN_DUMP_OFFSET = 29) when it is false — matching
test_sdiv_disabled in src/tests/verifier.rs. -/
theorem c8_sdiv_gated_by_flag (cfg : Config) :
    (cfg.enable_sdiv = true →
      ∀ insn ∈ sdivInsns, requisite_verify cfg (progOf insn) = .ok ())
    ∧ (cfg.enable_sdiv = false →
      ∀ insn ∈ sdivInsns, requisite_verify cfg (progOf insn)
        = .error (.unknownOpCode insn.opc (0 + ELF_INSN_DUMP_OFFSET))) := by
  constructor
  · intro hs insn hmem
    fin_cases hmem <;>
      simp [requisite_verify, verify_from, check_insn, hs, progOf,
        MOV32_IMM, DIV32_IMM, SDIV32_IMM, SDIV32_REG, SDIV64_IMM, SDIV64_REG, EXIT_OPC]
  · intro hs insn hmem
    fin_cases hmem <;>
      simp [requisite_verify, verify_from, check_insn, hs, progOf,
        ELF_INSN_DUMP_OFFSET,
        MOV32_IMM, DIV32_IMM, SDIV32_IMM, SDIV32_REG, SDIV64_IMM, SDIV64_REG, EXIT_OPC]

/-- C8 witness: the concrete evaluations at both flag values for
`sdiv32 r0, 2; exit`. -/
theorem c8_sdiv_gated_by_flag_witness :
    requisite_verify { testConfigMeterOn with enable_sdiv := true }
      (progOf { opc := SDIV32_IMM, dst := 0, src := 0, off := 0, imm := 2 }) = .ok ()
    ∧ requisite_verify { testConfigMeterOn with enable_sdiv := false }
      (progOf { opc := SDIV32_IMM, dst := 0, src := 0, off := 0, imm := 2 })
      = .error (.unknownOpCode SDIV32_IMM 29) := by
  have h1 := (c8_sdiv_gated_by_flag { testConfigMeterOn with enable_sdiv := true }).1
    rfl { opc := SDIV32_IMM, dst := 0, src := 0, off := 0, imm := 2 } (by decide)
  have h2 := (c8_sdiv_gated_by_flag { testConfigMeterOn with enable_sdiv := false }).2
    rfl { opc := SDIV32_IMM, dst := 0, src := 0, off := 0, imm := 2 } (by decide)
  exact ⟨h1, h2⟩

end Rbpf
